import Mathlib

/-!
# Health checker of the OCI native ingress controller

A shallow embedding of `pkg/server/health.go` and the properties of its
readiness and liveness probes.

* The two `atomic.Bool` cells of a `HealthChecker` are `Bool` fields; `Store`
  overwrites the field and `Load` reads it.
* A handler is a function from the checker, the request and the response
  writer it is handed to the response writer it leaves behind.
* `http.ResponseWriter` and `json.Encoder` are library code; they are modelled
  after their documentation, as far as this program exercises them.
* The package-level variable `globalHealthChecker` and the objects it may point
  to live in a `World`; `GetHealthChecker` is given both as one sequential
  call and as the three memory accesses it consists of, for interleavings.
-/

namespace Server

/-! ## Library model: HTTP status codes, header map, response writer -/

/-- Value of `http.StatusOK`. -/
def StatusOK : Nat := 200

/-- Value of `http.StatusServiceUnavailable`. -/
def StatusServiceUnavailable : Nat := 503

/-- An `http.Header`: keys mapped to their lists of values. -/
abbrev Header := List (String × List String)

/-- The punctuation allowed in a header key besides letters and digits, by
character code. -/
def tokenPunctuation : List Nat :=
  [33, 35, 36, 37, 38, 39, 42, 43, 45, 46, 94, 95, 96, 124, 126]

/-- Whether a character may occur in a header key. -/
def isTokenChar (c : Char) : Bool :=
  c.isAlphanum || tokenPunctuation.contains c.toNat

/-- Canonical capitalisation, one character at a time: `upper` says whether
the next letter starts a word. -/
def canonicalChars : Bool → List Char → List Char
  | _, [] => []
  | upper, c :: cs =>
    (if upper then c.toUpper else c.toLower) :: canonicalChars (c == '-') cs

/-- Model of `textproto.CanonicalMIMEHeaderKey`: the first letter and every
letter after a hyphen in upper case, the others in lower case; a key with a
character that is no token character is left as it is. -/
def canonicalMIMEHeaderKey (k : String) : String :=
  if k.data.all isTokenChar then String.mk (canonicalChars true k.data) else k

/-- Model of `Header.Set`: the values of the canonical key are replaced by the
single value given. -/
def Header.Set (h : Header) (key value : String) : Header :=
  let k := canonicalMIMEHeaderKey key
  (k, [value]) :: h.filter (fun e => e.1 != k)

/-- Model of `Header.Get`: the first value of the canonical key, if any. -/
def Header.Get (h : Header) (key : String) : Option String :=
  match h.lookup (canonicalMIMEHeaderKey key) with
  | some (v :: _) => some v
  | _ => none

/-- An `http.ResponseWriter` for final status codes, after its documentation:
`header` is the map returned by `Header()`; `WriteHeader` sends the status
line together with the headers that are in the map at that moment
(`sentHeader`), and later changes of the map are not sent; `body` is what has
been written. -/
structure ResponseWriter where
  header : Header
  wroteHeader : Bool
  status : Nat
  sentHeader : Header
  body : String
  deriving DecidableEq, Repr

/-- The writer a server hands to a handler: nothing set, nothing sent. -/
def ResponseWriter.fresh : ResponseWriter :=
  { header := [], wroteHeader := false, status := 0, sentHeader := [], body := "" }

/-- Model of `w.WriteHeader(code)`: the first call fixes the status code and
the headers sent; a further call changes nothing. -/
def ResponseWriter.WriteHeader (w : ResponseWriter) (code : Nat) : ResponseWriter :=
  if w.wroteHeader then w
  else { w with wroteHeader := true, status := code, sentHeader := w.header }

/-- Model of `w.Header().Set(key, value)`: changes the header map only. -/
def ResponseWriter.setHeader (w : ResponseWriter) (key value : String) : ResponseWriter :=
  { w with header := w.header.Set key value }

/-- Model of `w.Write(data)`: a write before any `WriteHeader` sends status
200 first; the data is appended to the body. -/
def ResponseWriter.Write (w : ResponseWriter) (data : String) : ResponseWriter :=
  let w1 := if w.wroteHeader then w else w.WriteHeader StatusOK
  { w1 with body := w1.body ++ data }

/-- An `*http.Request`, as far as a probe request has content. -/
structure Request where
  method : String
  path : String
  deriving DecidableEq, Repr

/-! ## Library model: `encoding/json` on a flat struct -/

/-- The double quote. -/
def quoteChar : Char := Char.ofNat 34

/-- The backslash. -/
def backslashChar : Char := Char.ofNat 92

/-- Lower-case hexadecimal digit of a number below 16. -/
def hexDigit (n : Nat) : Char :=
  "0123456789abcdef".data.getD n '0'

/-- The escape `\u` followed by four hexadecimal digits. -/
def unicodeEscape (n : Nat) : List Char :=
  [backslashChar, 'u', hexDigit (n / 4096 % 16), hexDigit (n / 256 % 16),
    hexDigit (n / 16 % 16), hexDigit (n % 16)]

/-- How the JSON encoder writes one character of a string (HTML escaping on,
as `json.NewEncoder` has it by default). -/
def escapeChar (c : Char) : List Char :=
  let n := c.toNat
  if n = 34 ∨ n = 92 then [backslashChar, c]
  else if n = 8 then [backslashChar, 'b']
  else if n = 12 then [backslashChar, 'f']
  else if n = 10 then [backslashChar, 'n']
  else if n = 13 then [backslashChar, 'r']
  else if n = 9 then [backslashChar, 't']
  else if n < 32 ∨ n = 60 ∨ n = 62 ∨ n = 38 ∨ n = 8232 ∨ n = 8233 then unicodeEscape n
  else [c]

/-- A JSON string literal. -/
def encodeString (s : String) : String :=
  String.mk (quoteChar :: (s.data.flatMap escapeChar ++ [quoteChar]))

/-- The values a field of `HealthStatus` can hold. -/
inductive JsonValue where
  | str (s : String)
  | bool (b : Bool)
  deriving DecidableEq, Repr

/-- Text of a JSON value. -/
def JsonValue.render : JsonValue → String
  | .str s => encodeString s
  | .bool true => "true"
  | .bool false => "false"

/-- Text of a JSON object: the members in order, separated by commas. -/
def renderObject (fields : List (String × JsonValue)) : String :=
  "\x7b" ++ ",".intercalate (fields.map fun f => encodeString f.1 ++ ":" ++ f.2.render) ++ "\x7d"

/-! ## The program -/

/-- State of a `sync.RWMutex`; the zero value is `unlocked`. -/
inductive RWMutex where
  | unlocked
  | readLocked (readers : Nat)
  | writeLocked
  deriving DecidableEq, Repr

/-- The struct `HealthChecker`: a mutex that no method locks, and two atomic
booleans. -/
structure HealthChecker where
  mu : RWMutex
  cachesSynced : Bool
  controllersReady : Bool
  deriving DecidableEq, Repr

/-- The struct `HealthStatus`. -/
structure HealthStatus where
  Status : String
  CachesSynced : Bool
  ControllersReady : Bool
  deriving DecidableEq, Repr

/-- The JSON members of a `HealthStatus`, named by the struct tags, in the
order of declaration. -/
def HealthStatus.fields (st : HealthStatus) : List (String × JsonValue) :=
  [("status", .str st.Status), ("cachesSynced", .bool st.CachesSynced),
    ("controllersReady", .bool st.ControllersReady)]

/-- Model of `json.NewEncoder(w).Encode(status)`: one write of the object's
text followed by a newline. -/
def Encode (w : ResponseWriter) (st : HealthStatus) : ResponseWriter :=
  w.Write (renderObject st.fields ++ "\n")

/-- The object `NewHealthChecker` constructs: both atomic booleans at their
zero value. -/
def NewHealthChecker : HealthChecker :=
  { mu := .unlocked, cachesSynced := false, controllersReady := false }

/-- The method `SetCachesSynced`: `hc.cachesSynced.Store(synced)`. -/
def HealthChecker.SetCachesSynced (hc : HealthChecker) (synced : Bool) : HealthChecker :=
  { hc with cachesSynced := synced }

/-- The method `SetControllersReady`: `hc.controllersReady.Store(ready)`. -/
def HealthChecker.SetControllersReady (hc : HealthChecker) (ready : Bool) : HealthChecker :=
  { hc with controllersReady := ready }

/-- The method `HandleReadiness`. The request is not looked at. -/
def HealthChecker.HandleReadiness (hc : HealthChecker) (w : ResponseWriter) (_r : Request) :
    ResponseWriter :=
  let status : HealthStatus :=
    { Status := "unhealthy", CachesSynced := hc.cachesSynced,
      ControllersReady := hc.controllersReady }
  let (status, w) :=
    if status.CachesSynced && status.ControllersReady then
      ({ status with Status := "healthy" }, w.WriteHeader StatusOK)
    else
      (status, w.WriteHeader StatusServiceUnavailable)
  let w := w.setHeader "Content-Type" "application/json"
  Encode w status

/-- The method `HandleLiveness`. The request is not looked at. -/
def HealthChecker.HandleLiveness (hc : HealthChecker) (w : ResponseWriter) (_r : Request) :
    ResponseWriter :=
  let status : HealthStatus :=
    { Status := "alive", CachesSynced := hc.cachesSynced,
      ControllersReady := hc.controllersReady }
  let w := w.WriteHeader StatusOK
  let w := w.setHeader "Content-Type" "application/json"
  Encode w status

/-! ## Sequences of calls on one checker -/

/-- A call on the checker: one of the two setters or one of the two probes. -/
inductive Call where
  | setCachesSynced (synced : Bool)
  | setControllersReady (ready : Bool)
  | readiness (r : Request)
  | liveness (r : Request)
  deriving DecidableEq, Repr

/-- One call: the checker it leaves and the response it produces, if it is a
probe (answered on a writer of its own). -/
def Call.exec (c : Call) (hc : HealthChecker) : HealthChecker × List ResponseWriter :=
  match c with
  | .setCachesSynced v => (hc.SetCachesSynced v, [])
  | .setControllersReady v => (hc.SetControllersReady v, [])
  | .readiness r => (hc, [hc.HandleReadiness ResponseWriter.fresh r])
  | .liveness r => (hc, [hc.HandleLiveness ResponseWriter.fresh r])

/-- The calls of a list one after the other, the head first. -/
def runCalls : List Call → HealthChecker → HealthChecker × List ResponseWriter
  | [], hc => (hc, [])
  | c :: cs, hc =>
    let first := c.exec hc
    let rest := runCalls cs first.1
    (rest.1, first.2 ++ rest.2)

/-- The values passed to `SetCachesSynced` in a list of calls, in order. -/
def cachesSyncedArgs (cs : List Call) : List Bool :=
  cs.filterMap fun c => match c with
    | .setCachesSynced v => some v
    | _ => none

/-- The values passed to `SetControllersReady` in a list of calls, in order. -/
def controllersReadyArgs (cs : List Call) : List Bool :=
  cs.filterMap fun c => match c with
    | .setControllersReady v => some v
    | _ => none

/-- The value most recently passed to `SetCachesSynced`; `false` if none was. -/
def lastCachesSynced (cs : List Call) : Bool :=
  (cachesSyncedArgs cs).getLast?.getD false

/-- The value most recently passed to `SetControllersReady`; `false` if none
was. -/
def lastControllersReady (cs : List Call) : Bool :=
  (controllersReadyArgs cs).getLast?.getD false

/-- The text of a JSON boolean. -/
def boolText (b : Bool) : String := if b then "true" else "false"

/-- The response body as the interface description gives it, written out:
an object with the members `status`, `cachesSynced` and `controllersReady`,
and the newline that ends it. -/
def bodyText (label : String) (cachesSynced controllersReady : Bool) : String :=
  "\x7b\"status\":\"" ++ label ++ "\",\"cachesSynced\":" ++ boolText cachesSynced ++
    ",\"controllersReady\":" ++ boolText controllersReady ++ "\x7d\n"

/-! ## The package-level variable -/

/-- A `*HealthChecker` that is not nil: the address of an object. -/
abbrev Ptr := Nat

/-- The memory `GetHealthChecker` works on: the objects by address, the next
address to hand out, and the variable `globalHealthChecker` (`none` is nil). -/
structure World where
  heap : Ptr → HealthChecker
  next : Ptr
  globalHealthChecker : Option Ptr

/-- A memory in which nothing has been constructed and the global is nil. -/
def World.empty : World :=
  { heap := fun _ => Server.NewHealthChecker, next := 0, globalHealthChecker := none }

/-- The function `NewHealthChecker` with its allocation: a new object at the
next address, and that address. -/
def World.NewHealthChecker (s : World) : Ptr × World :=
  (s.next,
    { s with heap := Function.update s.heap s.next Server.NewHealthChecker, next := s.next + 1 })

/-- The function `GetHealthChecker`, run without interruption. -/
def GetHealthChecker (s : World) : Option Ptr × World :=
  let s :=
    if s.globalHealthChecker = none then
      let made := s.NewHealthChecker
      { made.2 with globalHealthChecker := some made.1 }
    else s
  (s.globalHealthChecker, s)

/-- The method `SetCachesSynced` called through a pointer. -/
def World.SetCachesSynced (s : World) (p : Ptr) (synced : Bool) : World :=
  { s with heap := Function.update s.heap p ((s.heap p).SetCachesSynced synced) }

/-- The method `SetControllersReady` called through a pointer. -/
def World.SetControllersReady (s : World) (p : Ptr) (ready : Bool) : World :=
  { s with heap := Function.update s.heap p ((s.heap p).SetControllersReady ready) }

/-- An operation between two calls of `GetHealthChecker`: anything the package
offers. -/
inductive Action where
  | get
  | new
  | setCachesSynced (p : Ptr) (synced : Bool)
  | setControllersReady (p : Ptr) (ready : Bool)
  | readiness (p : Ptr) (r : Request)
  | liveness (p : Ptr) (r : Request)
  deriving DecidableEq, Repr

/-- The memory after one operation; the probes read only. -/
def Action.exec (a : Action) (s : World) : World :=
  match a with
  | .get => (GetHealthChecker s).2
  | .new => s.NewHealthChecker.2
  | .setCachesSynced p v => s.SetCachesSynced p v
  | .setControllersReady p v => s.SetControllersReady p v
  | .readiness _ _ => s
  | .liveness _ _ => s

/-- The memory after a list of operations, the head first. -/
def runActions (as : List Action) (s : World) : World :=
  as.foldl (fun s a => a.exec s) s

/-! ## `GetHealthChecker` under interleaving -/

/-- Where a caller of `GetHealthChecker` stands: before the nil check, between
a nil check that found nil and the assignment, before the read of the global
for `return`, or returned with a result. -/
inductive PC where
  | check
  | assign
  | ret
  | done (result : Option Ptr)
  deriving DecidableEq, Repr

/-- Concurrent callers of `GetHealthChecker`: the shared memory and each
caller's position. -/
structure Conc where
  world : World
  pcs : List PC

/-- The callers at the start: `n` of them, none has begun. -/
def Conc.init (s : World) (n : Nat) : Conc :=
  { world := s, pcs := List.replicate n .check }

/-- Caller `i` takes its next step: the nil check, the construction and
assignment, or the read for `return`. -/
def Conc.step (c : Conc) (i : Nat) : Conc :=
  match c.pcs[i]? with
  | none => c
  | some .check =>
    { c with pcs := c.pcs.set i (if c.world.globalHealthChecker = none then .assign else .ret) }
  | some .assign =>
    let made := c.world.NewHealthChecker
    { world := { made.2 with globalHealthChecker := some made.1 }, pcs := c.pcs.set i .ret }
  | some .ret => { c with pcs := c.pcs.set i (.done c.world.globalHealthChecker) }
  | some (.done _) => c

/-- A schedule: the callers step in the order listed. -/
def Conc.run (c : Conc) (sched : List Nat) : Conc :=
  sched.foldl Conc.step c

/-- Whether a caller other than `i` stands between its nil check and its
assignment. -/
def Conc.otherAssigning (c : Conc) (i : Nat) : Bool :=
  (List.range c.pcs.length).any fun j => j != i && c.pcs[j]? == some PC.assign

/-- A schedule in which no caller steps while another one stands between its
nil check and its assignment. -/
def Conc.noOverlap : Conc → List Nat → Bool
  | _, [] => true
  | c, i :: rest => !c.otherAssigning i && Conc.noOverlap (c.step i) rest

/-- How far a caller has come: steps taken on the longest path. -/
def PC.rank : PC → Nat
  | .check => 0
  | .assign => 1
  | .ret => 2
  | .done _ => 3

/-- Progress of caller `i`; 0 if there is no such caller. -/
def Conc.rankAt (c : Conc) (i : Nat) : Nat :=
  match c.pcs[i]? with
  | some pc => pc.rank
  | none => 0

/-- What holds of first calls scheduled without overlap, from a memory with
next address `a` and a nil global: either nothing has been assigned and every
caller is before its check or its assignment, or the instance at `a` has been
assigned, no other exists, and every caller that returned holds it. -/
def Conc.Inv (a : Ptr) (c : Conc) : Prop :=
  (c.world.globalHealthChecker = none ∧ c.world.next = a ∧
    ∀ (j : Nat) (pc : PC), c.pcs[j]? = some pc → pc = PC.check ∨ pc = PC.assign) ∨
  (c.world.globalHealthChecker = some a ∧ c.world.next = a + 1 ∧
    ∀ (j : Nat) (pc : PC), c.pcs[j]? = some pc → pc = PC.check ∨ pc = PC.ret ∨ pc = PC.done (some a))

/-! ## Auxiliary facts -/

theorem string_append_left_cancel (s a b : String) (h : s ++ a = s ++ b) : a = b := by
  have h1 : (s ++ a).data = (s ++ b).data := by rw [h]
  simp only [String.data_append] at h1
  exact String.ext (List.append_cancel_left h1)

/-- The text the encoder writes for a status is the text of the interface
description. -/
theorem encode_text (label : String) (cs cr : Bool)
    (hl : label = "healthy" ∨ label = "unhealthy" ∨ label = "alive") :
    renderObject (HealthStatus.fields ⟨label, cs, cr⟩) ++ "\n" = bodyText label cs cr := by
  rcases hl with h | h | h <;> subst h <;> cases cs <;> cases cr <;> decide

/-- What `HandleReadiness` leaves on a writer on which nothing was sent. -/
theorem readiness_result (hc : HealthChecker) (w : ResponseWriter) (r : Request)
    (hw : w.wroteHeader = false) :
    hc.HandleReadiness w r =
      { header := w.header.Set "Content-Type" "application/json",
        wroteHeader := true,
        status := if hc.cachesSynced && hc.controllersReady then 200 else 503,
        sentHeader := w.header,
        body := w.body ++
          (renderObject (HealthStatus.fields
            ⟨if hc.cachesSynced && hc.controllersReady then "healthy" else "unhealthy",
              hc.cachesSynced, hc.controllersReady⟩) ++ "\n") } := by
  cases hcs : hc.cachesSynced <;> cases hcr : hc.controllersReady <;>
    simp [HealthChecker.HandleReadiness, Encode, ResponseWriter.Write,
      ResponseWriter.WriteHeader, ResponseWriter.setHeader, hw, hcs, hcr, StatusOK,
      StatusServiceUnavailable]

/-- What `HandleLiveness` leaves on a writer on which nothing was sent. -/
theorem liveness_result (hc : HealthChecker) (w : ResponseWriter) (r : Request)
    (hw : w.wroteHeader = false) :
    hc.HandleLiveness w r =
      { header := w.header.Set "Content-Type" "application/json",
        wroteHeader := true,
        status := 200,
        sentHeader := w.header,
        body := w.body ++
          (renderObject (HealthStatus.fields ⟨"alive", hc.cachesSynced, hc.controllersReady⟩)
            ++ "\n") } := by
  simp [HealthChecker.HandleLiveness, Encode, ResponseWriter.Write,
    ResponseWriter.WriteHeader, ResponseWriter.setHeader, hw, StatusOK]

theorem runCalls_cachesSynced (cs : List Call) (hc : HealthChecker) :
    (runCalls cs hc).1.cachesSynced = (cachesSyncedArgs cs).getLast?.getD hc.cachesSynced := by
  induction cs generalizing hc with
  | nil => rfl
  | cons c cs ih =>
    cases c <;>
      simp [runCalls, Call.exec, cachesSyncedArgs, ih, HealthChecker.SetCachesSynced,
        HealthChecker.SetControllersReady, List.getLast?_cons]

theorem runCalls_controllersReady (cs : List Call) (hc : HealthChecker) :
    (runCalls cs hc).1.controllersReady =
      (controllersReadyArgs cs).getLast?.getD hc.controllersReady := by
  induction cs generalizing hc with
  | nil => rfl
  | cons c cs ih =>
    cases c <;>
      simp [runCalls, Call.exec, controllersReadyArgs, ih, HealthChecker.SetCachesSynced,
        HealthChecker.SetControllersReady, List.getLast?_cons]

theorem iterate_idempotent {α : Type} (f : α → α) (hf : ∀ x, f (f x) = f x) (n : Nat) (x : α) :
    f^[n + 1] x = f x := by
  induction n with
  | zero => rfl
  | succ n ih => rw [Function.iterate_succ_apply', ih, hf]

/-! ## The probes -/

/-- C1: after any sequence of setter calls and probe requests on a freshly
constructed checker, a readiness request is answered with status 200 exactly
when the value most recently passed to `SetCachesSynced` and the value most
recently passed to `SetControllersReady` are both true (a flag never set
counts as false), and with 503 otherwise; in particular it is answered with
503 right after either flag has been set to false. -/
theorem readiness_follows_latest_values (cs : List Call) (w : ResponseWriter) (r : Request)
    (hw : w.wroteHeader = false) :
    ((((runCalls cs NewHealthChecker).1.HandleReadiness w r).status = 200 ↔
        (lastCachesSynced cs = true ∧ lastControllersReady cs = true)) ∧
      (¬ (lastCachesSynced cs = true ∧ lastControllersReady cs = true) →
        ((runCalls cs NewHealthChecker).1.HandleReadiness w r).status = 503)) ∧
    ((runCalls (cs ++ [Call.setCachesSynced false]) NewHealthChecker).1.HandleReadiness w r).status
      = 503 ∧
    ((runCalls (cs ++ [Call.setControllersReady false]) NewHealthChecker).1.HandleReadiness
      w r).status = 503 := by
  have key : ∀ l : List Call,
      ((runCalls l NewHealthChecker).1.HandleReadiness w r).status =
        if lastCachesSynced l && lastControllersReady l then 200 else 503 := by
    intro l
    rw [readiness_result _ w r hw, runCalls_cachesSynced, runCalls_controllersReady]
    rfl
  refine ⟨⟨?_, ?_⟩, ?_, ?_⟩
  · rw [key]
    cases lastCachesSynced cs <;> cases lastControllersReady cs <;> simp
  · intro h
    rw [key]
    cases h1 : lastCachesSynced cs <;> cases h2 : lastControllersReady cs <;> simp_all
  · rw [key]
    simp [lastCachesSynced, cachesSyncedArgs, List.filterMap_append]
  · rw [key]
    simp [lastControllersReady, controllersReadyArgs, List.filterMap_append]

/-- Witness of C1: caches synced, controllers ready, then caches reset. -/
theorem readiness_follows_latest_values_witness :
    ResponseWriter.fresh.wroteHeader = false ∧
    ((((runCalls [Call.setCachesSynced true, Call.setControllersReady true]
          NewHealthChecker).1.HandleReadiness ResponseWriter.fresh ⟨"GET", "/readyz"⟩).status = 200 ↔
        (lastCachesSynced [Call.setCachesSynced true, Call.setControllersReady true] = true ∧
          lastControllersReady [Call.setCachesSynced true, Call.setControllersReady true]
            = true)) ∧
      ((runCalls ([Call.setCachesSynced true, Call.setControllersReady true] ++
          [Call.setCachesSynced false]) NewHealthChecker).1.HandleReadiness
            ResponseWriter.fresh ⟨"GET", "/readyz"⟩).status = 503) :=
  ⟨rfl,
    (readiness_follows_latest_values [Call.setCachesSynced true, Call.setControllersReady true]
      ResponseWriter.fresh ⟨"GET", "/readyz"⟩ rfl).1.1,
    (readiness_follows_latest_values [Call.setCachesSynced true, Call.setControllersReady true]
      ResponseWriter.fresh ⟨"GET", "/readyz"⟩ rfl).2.1⟩

/-- C2: on a writer on which nothing was sent, `HandleReadiness` writes status
200 and a body with label "healthy" when both flags are true, and status 503
and a body with label "unhealthy" in every other state; the status is 200
exactly when the label of the body is "healthy". -/
theorem readiness_code_and_label (hc : HealthChecker) (w : ResponseWriter) (r : Request)
    (hw : w.wroteHeader = false) :
    (hc.cachesSynced = true ∧ hc.controllersReady = true →
      (hc.HandleReadiness w r).status = 200 ∧
      (hc.HandleReadiness w r).body = w.body ++ bodyText "healthy" true true) ∧
    (¬ (hc.cachesSynced = true ∧ hc.controllersReady = true) →
      (hc.HandleReadiness w r).status = 503 ∧
      (hc.HandleReadiness w r).body =
        w.body ++ bodyText "unhealthy" hc.cachesSynced hc.controllersReady) ∧
    ((hc.HandleReadiness w r).status = 200 ↔
      ∃ cs cr, (hc.HandleReadiness w r).body = w.body ++ bodyText "healthy" cs cr) := by
  rw [readiness_result hc w r hw]
  have hne : ∀ a b cs cr, bodyText "unhealthy" a b ≠ bodyText "healthy" cs cr := by decide
  cases hcs : hc.cachesSynced <;> cases hcr : hc.controllersReady
  case true.true =>
    refine ⟨fun _ => ⟨rfl, by simp [encode_text]⟩, fun h => absurd ⟨rfl, rfl⟩ h, ?_⟩
    exact ⟨fun _ => ⟨true, true, by simp [encode_text]⟩, fun _ => rfl⟩
  all_goals
    refine ⟨fun h => by simp at h, fun _ => ⟨rfl, by simp [encode_text]⟩, ?_⟩
    constructor
    · intro h
      simp at h
    · rintro ⟨cs, cr, h⟩
      simp only [Bool.and_false, Bool.and_true, Bool.false_and, Bool.false_eq_true, if_false,
        encode_text, or_true, true_or] at h
      exact absurd (string_append_left_cancel _ _ _ h) (hne _ _ _ _)

/-- Witness of C2: both flags true. -/
theorem readiness_code_and_label_witness :
    ResponseWriter.fresh.wroteHeader = false ∧
    (((NewHealthChecker.SetCachesSynced true).SetControllersReady true).HandleReadiness
        ResponseWriter.fresh ⟨"GET", "/readyz"⟩).status = 200 ∧
    (((NewHealthChecker.SetCachesSynced true).SetControllersReady true).HandleReadiness
        ResponseWriter.fresh ⟨"GET", "/readyz"⟩).body =
      ResponseWriter.fresh.body ++ bodyText "healthy" true true :=
  ⟨rfl, (readiness_code_and_label ((NewHealthChecker.SetCachesSynced true).SetControllersReady true)
    ResponseWriter.fresh ⟨"GET", "/readyz"⟩ rfl).1 ⟨rfl, rfl⟩⟩

/-- C3: on a writer on which nothing was sent, `HandleLiveness` writes status
200 and a body with label "alive" whatever the two flags are. -/
theorem liveness_always_alive (hc : HealthChecker) (w : ResponseWriter) (r : Request)
    (hw : w.wroteHeader = false) :
    (hc.HandleLiveness w r).status = 200 ∧
    (hc.HandleLiveness w r).body = w.body ++ bodyText "alive" hc.cachesSynced hc.controllersReady := by
  rw [liveness_result hc w r hw]
  simp [encode_text]

/-- Witness of C3: the all-false initial state. -/
theorem liveness_always_alive_witness :
    ResponseWriter.fresh.wroteHeader = false ∧
    (NewHealthChecker.HandleLiveness ResponseWriter.fresh ⟨"GET", "/healthz"⟩).status = 200 ∧
    (NewHealthChecker.HandleLiveness ResponseWriter.fresh ⟨"GET", "/healthz"⟩).body =
      ResponseWriter.fresh.body ++
        bodyText "alive" NewHealthChecker.cachesSynced NewHealthChecker.controllersReady :=
  ⟨rfl, liveness_always_alive NewHealthChecker ResponseWriter.fresh ⟨"GET", "/healthz"⟩ rfl⟩

/-- C4, evaluated: for every checker and request, on the writer a server hands
over, both handlers call `WriteHeader` while the header map is still empty, so
no `Content-Type` is among the headers sent; `application/json` is put into
the map only afterwards. -/
theorem content_type_set_after_headers_sent (hc : HealthChecker) (r : Request) :
    (hc.HandleReadiness ResponseWriter.fresh r).sentHeader.Get "Content-Type" = none ∧
    (hc.HandleReadiness ResponseWriter.fresh r).header.Get "Content-Type"
      = some "application/json" ∧
    (hc.HandleLiveness ResponseWriter.fresh r).sentHeader.Get "Content-Type" = none ∧
    (hc.HandleLiveness ResponseWriter.fresh r).header.Get "Content-Type"
      = some "application/json" := by
  have hset : (ResponseWriter.fresh.header.Set "Content-Type" "application/json").Get
      "Content-Type" = some "application/json" := by decide
  rw [readiness_result hc _ r rfl, liveness_result hc _ r rfl]
  exact ⟨rfl, hset, rfl, hset⟩

/-- C5: on a writer on which nothing was sent, the body either handler writes
is a JSON object with exactly the three members `status`, `cachesSynced` and
`controllersReady`, in which the two flags have the values stored in the
checker, whether the status is 200 or 503; after `SetCachesSynced(true)` alone
the readiness body shows `cachesSynced` true and `controllersReady` false. -/
theorem body_has_three_fields (hc : HealthChecker) (w : ResponseWriter) (r : Request)
    (hw : w.wroteHeader = false) :
    (∃ label,
      (hc.HandleReadiness w r).body = w.body ++
        (renderObject [("status", .str label), ("cachesSynced", .bool hc.cachesSynced),
          ("controllersReady", .bool hc.controllersReady)] ++ "\n") ∧
      (hc.HandleReadiness w r).body =
        w.body ++ bodyText label hc.cachesSynced hc.controllersReady) ∧
    (∃ label,
      (hc.HandleLiveness w r).body = w.body ++
        (renderObject [("status", .str label), ("cachesSynced", .bool hc.cachesSynced),
          ("controllersReady", .bool hc.controllersReady)] ++ "\n") ∧
      (hc.HandleLiveness w r).body =
        w.body ++ bodyText label hc.cachesSynced hc.controllersReady) ∧
    ((NewHealthChecker.SetCachesSynced true).HandleReadiness w r).status = 503 ∧
    ((NewHealthChecker.SetCachesSynced true).HandleReadiness w r).body = w.body ++
      "\x7b\"status\":\"unhealthy\",\"cachesSynced\":true,\"controllersReady\":false\x7d\n" := by
  refine ⟨?_, ?_, ?_, ?_⟩
  · refine ⟨if hc.cachesSynced && hc.controllersReady then "healthy" else "unhealthy", ?_, ?_⟩
    · rw [readiness_result hc w r hw]
      rfl
    · rw [readiness_result hc w r hw]
      cases hc.cachesSynced <;> cases hc.controllersReady <;> simp [encode_text]
  · refine ⟨"alive", ?_, ?_⟩
    · rw [liveness_result hc w r hw]
      rfl
    · rw [liveness_result hc w r hw]
      simp [encode_text]
  · rw [readiness_result _ w r hw]
    rfl
  · rw [readiness_result _ w r hw]
    show w.body ++ _ = w.body ++ _
    congr 1

/-- Witness of C5: the writer a server hands over; shown is the example after
`SetCachesSynced(true)` alone. -/
theorem body_has_three_fields_witness :
    ResponseWriter.fresh.wroteHeader = false ∧
    ((NewHealthChecker.SetCachesSynced true).HandleReadiness ResponseWriter.fresh
      ⟨"GET", "/readyz"⟩).body = ResponseWriter.fresh.body ++
      "\x7b\"status\":\"unhealthy\",\"cachesSynced\":true,\"controllersReady\":false\x7d\n" :=
  ⟨rfl, (body_has_three_fields NewHealthChecker ResponseWriter.fresh ⟨"GET", "/readyz"⟩
    rfl).2.2.2⟩

/-- C6: the checker `NewHealthChecker` constructs has both flags false, and on
a writer on which nothing was sent `HandleReadiness` answers for it with
status 503 and the body with label "unhealthy" and both flags false. -/
theorem initial_state_not_ready (w : ResponseWriter) (r : Request)
    (hw : w.wroteHeader = false) :
    NewHealthChecker.cachesSynced = false ∧ NewHealthChecker.controllersReady = false ∧
    (NewHealthChecker.HandleReadiness w r).status = 503 ∧
    (NewHealthChecker.HandleReadiness w r).body = w.body ++
      "\x7b\"status\":\"unhealthy\",\"cachesSynced\":false,\"controllersReady\":false\x7d\n" := by
  refine ⟨rfl, rfl, ?_, ?_⟩
  · rw [readiness_result _ w r hw]
    rfl
  · rw [readiness_result _ w r hw]
    show w.body ++ _ = w.body ++ _
    congr 1

/-- Witness of C6: the writer a server hands over. -/
theorem initial_state_not_ready_witness :
    ResponseWriter.fresh.wroteHeader = false ∧
    NewHealthChecker.cachesSynced = false ∧ NewHealthChecker.controllersReady = false ∧
    (NewHealthChecker.HandleReadiness ResponseWriter.fresh ⟨"GET", "/readyz"⟩).status = 503 ∧
    (NewHealthChecker.HandleReadiness ResponseWriter.fresh ⟨"GET", "/readyz"⟩).body =
      ResponseWriter.fresh.body ++
      "\x7b\"status\":\"unhealthy\",\"cachesSynced\":false,\"controllersReady\":false\x7d\n" :=
  ⟨rfl, initial_state_not_ready ResponseWriter.fresh ⟨"GET", "/readyz"⟩ rfl⟩

/-- C8: calling `SetCachesSynced` with the same value two or more times in a
row leaves the state one call leaves, and so for `SetControllersReady`; every
readiness and liveness response after the repeated calls is the response after
one call. -/
theorem repeated_setter_is_one_call (hc : HealthChecker) (v : Bool) (n : Nat) :
    ((fun h => HealthChecker.SetCachesSynced h v)^[n + 2] hc = hc.SetCachesSynced v ∧
      (fun h => HealthChecker.SetControllersReady h v)^[n + 2] hc = hc.SetControllersReady v) ∧
    ∀ (w : ResponseWriter) (r : Request),
      (((fun h => HealthChecker.SetCachesSynced h v)^[n + 2] hc).HandleReadiness w r =
          (hc.SetCachesSynced v).HandleReadiness w r ∧
        ((fun h => HealthChecker.SetCachesSynced h v)^[n + 2] hc).HandleLiveness w r =
          (hc.SetCachesSynced v).HandleLiveness w r) ∧
      (((fun h => HealthChecker.SetControllersReady h v)^[n + 2] hc).HandleReadiness w r =
          (hc.SetControllersReady v).HandleReadiness w r ∧
        ((fun h => HealthChecker.SetControllersReady h v)^[n + 2] hc).HandleLiveness w r =
          (hc.SetControllersReady v).HandleLiveness w r) := by
  have h1 : (fun h => HealthChecker.SetCachesSynced h v)^[n + 2] hc = hc.SetCachesSynced v :=
    iterate_idempotent (fun h => HealthChecker.SetCachesSynced h v) (fun _ => rfl) (n + 1) hc
  have h2 : (fun h => HealthChecker.SetControllersReady h v)^[n + 2] hc
      = hc.SetControllersReady v :=
    iterate_idempotent (fun h => HealthChecker.SetControllersReady h v) (fun _ => rfl) (n + 1) hc
  refine ⟨⟨h1, h2⟩, fun w r => ?_⟩
  rw [h1, h2]
  exact ⟨⟨rfl, rfl⟩, rfl, rfl⟩

/-! ## The shared instance, sequentially -/

theorem getHealthChecker_of_some (s : World) (p : Ptr) (h : s.globalHealthChecker = some p) :
    GetHealthChecker s = (some p, s) := by
  simp [GetHealthChecker, h]

theorem getHealthChecker_of_none (s : World) (h : s.globalHealthChecker = none) :
    GetHealthChecker s =
      (some s.next,
        { heap := Function.update s.heap s.next NewHealthChecker, next := s.next + 1,
          globalHealthChecker := some s.next }) := by
  simp [GetHealthChecker, h, World.NewHealthChecker]

theorem action_keeps_global (a : Action) (s : World) (p : Ptr)
    (h : s.globalHealthChecker = some p) : (a.exec s).globalHealthChecker = some p := by
  cases a <;>
    simp [Action.exec, getHealthChecker_of_some s p h, World.NewHealthChecker,
      World.SetCachesSynced, World.SetControllersReady, h]

theorem runActions_keeps_global (as : List Action) (s : World) (p : Ptr)
    (h : s.globalHealthChecker = some p) :
    (runActions as s).globalHealthChecker = some p := by
  induction as generalizing s with
  | nil => exact h
  | cons a as ih => exact ih (a.exec s) (action_keeps_global a s p h)

/-- Two sequential calls with any operations between them: the first returns
a pointer, constructing exactly when the global is nil; the second returns the
same pointer and leaves the memory as it finds it. -/
theorem getHealthChecker_twice (s : World) (as : List Action) :
    ∃ p : Ptr,
      (GetHealthChecker s).1 = some p ∧
      (s.globalHealthChecker = none →
        p = s.next ∧ (GetHealthChecker s).2.next = s.next + 1 ∧
        (GetHealthChecker s).2.heap p = NewHealthChecker) ∧
      (s.globalHealthChecker ≠ none →
        s.globalHealthChecker = some p ∧ (GetHealthChecker s).2 = s) ∧
      (GetHealthChecker (runActions as (GetHealthChecker s).2)).1 = some p ∧
      (GetHealthChecker (runActions as (GetHealthChecker s).2)).2 =
        runActions as (GetHealthChecker s).2 := by
  cases hg : s.globalHealthChecker with
  | none =>
    refine ⟨s.next, ?_, ?_, ?_, ?_, ?_⟩
    · rw [getHealthChecker_of_none s hg]
    · intro _
      rw [getHealthChecker_of_none s hg]
      simp
    · intro h
      exact absurd rfl h
    · rw [getHealthChecker_of_some _ s.next
        (runActions_keeps_global as _ s.next (by rw [getHealthChecker_of_none s hg]))]
    · rw [getHealthChecker_of_some _ s.next
        (runActions_keeps_global as _ s.next (by rw [getHealthChecker_of_none s hg]))]
  | some q =>
    refine ⟨q, ?_, ?_, ?_, ?_, ?_⟩
    · rw [getHealthChecker_of_some s q hg]
    · intro h
      cases h
    · intro _
      rw [getHealthChecker_of_some s q hg]
      exact ⟨rfl, rfl⟩
    · rw [getHealthChecker_of_some s q hg]
      rw [getHealthChecker_of_some _ q (runActions_keeps_global as _ q hg)]
    · rw [getHealthChecker_of_some s q hg]
      rw [getHealthChecker_of_some _ q (runActions_keeps_global as _ q hg)]

/-- C7: run one after the other, from any memory (global nil or set), the
first `GetHealthChecker` call constructs an instance exactly when the global
is nil, and a later call, whatever operations of the package lie between,
returns the same instance and replaces nothing; so a flag stored through the
result of one call is the flag read through the result of the other. -/
theorem getHealthChecker_same_instance (s : World) (as : List Action) :
    (∃ p : Ptr,
      (GetHealthChecker s).1 = some p ∧
      (s.globalHealthChecker = none →
        p = s.next ∧ (GetHealthChecker s).2.next = s.next + 1 ∧
        (GetHealthChecker s).2.heap p = NewHealthChecker) ∧
      (s.globalHealthChecker ≠ none →
        s.globalHealthChecker = some p ∧ (GetHealthChecker s).2 = s) ∧
      (GetHealthChecker (runActions as (GetHealthChecker s).2)).1 = some p ∧
      (GetHealthChecker (runActions as (GetHealthChecker s).2)).2 =
        runActions as (GetHealthChecker s).2) ∧
    ∀ (p1 p2 : Ptr), (GetHealthChecker s).1 = some p1 →
      (GetHealthChecker (runActions as (GetHealthChecker s).2)).1 = some p2 →
      ∀ (t : World) (v : Bool),
        ((t.SetCachesSynced p1 v).heap p2).cachesSynced = v ∧
        ((t.SetControllersReady p1 v).heap p2).controllersReady = v ∧
        ((t.SetCachesSynced p2 v).heap p1).cachesSynced = v ∧
        ((t.SetControllersReady p2 v).heap p1).controllersReady = v := by
  refine ⟨getHealthChecker_twice s as, ?_⟩
  obtain ⟨p, h1, _, _, h2, _⟩ := getHealthChecker_twice s as
  intro p1 p2 hp1 hp2 t v
  rw [h1] at hp1
  rw [h2] at hp2
  cases hp1
  cases hp2
  simp [World.SetCachesSynced, World.SetControllersReady, HealthChecker.SetCachesSynced,
    HealthChecker.SetControllersReady]

/-! ## The shared instance, under interleaving -/

theorem inv_init (s : World) (n : Nat) (hs : s.globalHealthChecker = none) :
    (Conc.init s n).Inv s.next := by
  refine Or.inl ⟨hs, rfl, ?_⟩
  intro j pc h
  simp only [Conc.init, List.getElem?_replicate] at h
  split at h
  · exact Or.inl (Option.some.inj h).symm
  · cases h

theorem otherAssigning_false (c : Conc) (i j : Nat) (h : c.otherAssigning i = false)
    (hne : j ≠ i) : c.pcs[j]? ≠ some PC.assign := by
  intro hj
  have hlt : j < c.pcs.length := by
    rcases Nat.lt_or_ge j c.pcs.length with h1 | h1
    · exact h1
    · rw [List.getElem?_eq_none h1] at hj
      cases hj
  have := (List.any_eq_false.mp h) j (List.mem_range.mpr hlt)
  simp [hne, hj] at this

theorem inv_step (a : Ptr) (c : Conc) (i : Nat) (hinv : c.Inv a)
    (hno : c.otherAssigning i = false) : (c.step i).Inv a := by
  cases hi : c.pcs[i]? with
  | none => simpa [Conc.step, hi] using hinv
  | some pc =>
    cases pc with
    | check =>
      rcases hinv with ⟨hg, hn, hp⟩ | ⟨hg, hn, hp⟩
      · refine Or.inl ⟨by simpa [Conc.step, hi] using hg, by simpa [Conc.step, hi] using hn, ?_⟩
        intro j pc h
        simp only [Conc.step, hi, hg, if_true, List.getElem?_set] at h
        split at h
        · split at h
          · exact Or.inr (Option.some.inj h).symm
          · cases h
        · exact hp j pc h
      · refine Or.inr ⟨by simpa [Conc.step, hi] using hg, by simpa [Conc.step, hi] using hn, ?_⟩
        intro j pc h
        simp only [Conc.step, hi, hg, List.getElem?_set] at h
        split at h
        · split at h
          · exact Or.inr (Or.inl (by simpa using (Option.some.inj h).symm))
          · cases h
        · exact hp j pc h
    | assign =>
      rcases hinv with ⟨hg, hn, hp⟩ | ⟨hg, hn, hp⟩
      · refine Or.inr ⟨by simp [Conc.step, hi, World.NewHealthChecker, hn],
          by simp [Conc.step, hi, World.NewHealthChecker, hn], ?_⟩
        intro j pc h
        simp only [Conc.step, hi, List.getElem?_set] at h
        split at h
        · split at h
          · exact Or.inr (Or.inl (Option.some.inj h).symm)
          · cases h
        · rename_i hne
          rcases hp j pc h with h1 | h1
          · exact Or.inl h1
          · subst h1
            exact absurd h (otherAssigning_false c i j hno (fun e => hne e.symm))
      · rcases hp i _ hi with h1 | h1 | h1 <;> cases h1
    | ret =>
      rcases hinv with ⟨hg, hn, hp⟩ | ⟨hg, hn, hp⟩
      · rcases hp i _ hi with h1 | h1 <;> cases h1
      · refine Or.inr ⟨by simpa [Conc.step, hi] using hg, by simpa [Conc.step, hi] using hn, ?_⟩
        intro j pc h
        simp only [Conc.step, hi, hg, List.getElem?_set] at h
        split at h
        · split at h
          · exact Or.inr (Or.inr (Option.some.inj h).symm)
          · cases h
        · exact hp j pc h
    | done res => simpa [Conc.step, hi] using hinv

theorem inv_run (a : Ptr) (sched : List Nat) (c : Conc) (hinv : c.Inv a)
    (hno : c.noOverlap sched = true) : (c.run sched).Inv a := by
  induction sched generalizing c with
  | nil => exact hinv
  | cons i rest ih =>
    simp only [Conc.noOverlap, Bool.and_eq_true, Bool.not_eq_true'] at hno
    exact ih (c.step i) (inv_step a c i hinv hno.1) hno.2

theorem step_length (c : Conc) (i : Nat) : (c.step i).pcs.length = c.pcs.length := by
  unfold Conc.step
  split <;> simp

theorem step_other (c : Conc) (i j : Nat) (h : i ≠ j) : (c.step i).pcs[j]? = c.pcs[j]? := by
  unfold Conc.step
  split <;> simp [List.getElem?_set_ne h]

theorem step_rank (c : Conc) (i : Nat) (h : i < c.pcs.length) :
    c.rankAt i + 1 ≤ (c.step i).rankAt i ∨ (c.step i).rankAt i = 3 := by
  have hi : c.pcs[i]? = some c.pcs[i] := List.getElem?_eq_getElem h
  cases hpc : c.pcs[i] with
  | check =>
    rw [hpc] at hi
    by_cases hg : c.world.globalHealthChecker = none <;>
      simp [Conc.rankAt, Conc.step, hi, hg, h, PC.rank]
  | assign =>
    rw [hpc] at hi
    simp [Conc.rankAt, Conc.step, hi, h, PC.rank]
  | ret =>
    rw [hpc] at hi
    simp [Conc.rankAt, Conc.step, hi, h, PC.rank]
  | done res =>
    rw [hpc] at hi
    simp [Conc.rankAt, Conc.step, hi, PC.rank]

theorem run_completes (sched : List Nat) (c : Conc) (i : Nat) (h : i < c.pcs.length)
    (hcount : 3 ≤ c.rankAt i + sched.count i) :
    ∃ res, (c.run sched).pcs[i]? = some (PC.done res) := by
  induction sched generalizing c with
  | nil =>
    have hi : c.pcs[i]? = some c.pcs[i] := List.getElem?_eq_getElem h
    simp only [List.count_nil, Nat.add_zero, Conc.rankAt, hi] at hcount
    cases hpc : c.pcs[i] with
    | done res => exact ⟨res, by rw [← hpc]; exact hi⟩
    | check => rw [hpc] at hcount; simp [PC.rank] at hcount
    | assign => rw [hpc] at hcount; simp [PC.rank] at hcount
    | ret => rw [hpc] at hcount; simp [PC.rank] at hcount
  | cons j rest ih =>
    show ∃ res, ((c.step j).run rest).pcs[i]? = _
    apply ih (c.step j) (by rw [step_length]; exact h)
    by_cases hji : j = i
    · subst hji
      rw [List.count_cons_self] at hcount
      rcases step_rank c j h with h1 | h1 <;> omega
    · have : (c.step j).rankAt i = c.rankAt i := by
        simp [Conc.rankAt, step_other c j i hji]
      rw [List.count_cons_of_ne (fun e => hji e.symm)] at hcount
      omega

/-- One caller alone takes the steps of the sequential `GetHealthChecker`. -/
theorem single_caller_is_sequential (s : World) :
    ((Conc.init s 1).run [0, 0, 0]).pcs = [PC.done (GetHealthChecker s).1] ∧
    ((Conc.init s 1).run [0, 0, 0]).world = (GetHealthChecker s).2 := by
  cases hg : s.globalHealthChecker with
  | none =>
    rw [getHealthChecker_of_none s hg]
    simp [Conc.init, Conc.run, Conc.step, hg, World.NewHealthChecker]
  | some p =>
    rw [getHealthChecker_of_some s p hg]
    simp [Conc.init, Conc.run, Conc.step, hg]

/-- C10, as the code has it: two first calls whose nil checks both come before
either assignment each construct an instance, and the two callers return
different instances. -/
theorem overlapping_first_calls_differ :
    ((Conc.init World.empty 2).run [0, 1, 0, 0, 1, 1]).pcs[0]? = some (PC.done (some 0)) ∧
    ((Conc.init World.empty 2).run [0, 1, 0, 0, 1, 1]).pcs[1]? = some (PC.done (some 1)) ∧
    ((Conc.init World.empty 2).run [0, 1, 0, 0, 1, 1]).pcs[0]? ≠
      ((Conc.init World.empty 2).run [0, 1, 0, 0, 1, 1]).pcs[1]? ∧
    ((Conc.init World.empty 2).run [0, 1, 0, 0, 1, 1]).world.next = World.empty.next + 2 := by
  decide

/-- C10, amended: when several callers make their first `GetHealthChecker`
call and no caller takes a step while another one stands between its nil check
and its assignment, at most one instance is constructed, every caller that has
returned received that one instance, which is then the global, and a caller
scheduled three times has returned. -/
theorem first_calls_without_overlap (s : World) (n : Nat) (sched : List Nat)
    (hs : s.globalHealthChecker = none)
    (hsched : (Conc.init s n).noOverlap sched = true) :
    (∀ (i : Nat) (res : Option Ptr),
      ((Conc.init s n).run sched).pcs[i]? = some (PC.done res) →
        res = some s.next ∧
        ((Conc.init s n).run sched).world.globalHealthChecker = some s.next ∧
        ((Conc.init s n).run sched).world.next = s.next + 1) ∧
    ((Conc.init s n).run sched).world.next ≤ s.next + 1 ∧
    (∀ i : Nat, i < n → 3 ≤ sched.count i →
      ∃ res, ((Conc.init s n).run sched).pcs[i]? = some (PC.done res)) := by
  have hinv := inv_run s.next sched (Conc.init s n) (inv_init s n hs) hsched
  refine ⟨?_, ?_, ?_⟩
  · intro i res h
    rcases hinv with ⟨_, _, hp⟩ | ⟨hg, hn, hp⟩
    · rcases hp i _ h with h1 | h1 <;> cases h1
    · rcases hp i _ h with h1 | h1 | h1
      · cases h1
      · cases h1
      · exact ⟨PC.done.inj h1, hg, hn⟩
  · rcases hinv with ⟨_, hn, _⟩ | ⟨_, hn, _⟩
    · rw [hn]
      exact Nat.le_succ _
    · rw [hn]
  · intro i hi hcount
    exact run_completes sched (Conc.init s n) i (by simpa [Conc.init] using hi)
      (by omega)

/-- Witness of the amended C10: two callers, the first checks and assigns
before the second begins. -/
theorem first_calls_without_overlap_witness :
    World.empty.globalHealthChecker = none ∧
    (Conc.init World.empty 2).noOverlap [0, 0, 1, 0, 1, 1] = true ∧
    ∀ (i : Nat) (res : Option Ptr),
      ((Conc.init World.empty 2).run [0, 0, 1, 0, 1, 1]).pcs[i]? = some (PC.done res) →
        res = some World.empty.next ∧
        ((Conc.init World.empty 2).run [0, 0, 1, 0, 1, 1]).world.globalHealthChecker
          = some World.empty.next ∧
        ((Conc.init World.empty 2).run [0, 0, 1, 0, 1, 1]).world.next = World.empty.next + 1 :=
  ⟨rfl, by decide,
    (first_calls_without_overlap World.empty 2 [0, 0, 1, 0, 1, 1] rfl (by decide)).1⟩

/-- Witness of C7: an empty memory, with a direct construction, a setter call
and a further `GetHealthChecker` between the two calls; both return address 0,
and a flag stored through the one is read through the other. -/
theorem getHealthChecker_same_instance_witness :
    (GetHealthChecker World.empty).1 = some 0 ∧
    (GetHealthChecker (runActions [Action.new, Action.setCachesSynced 0 true, Action.get]
      (GetHealthChecker World.empty).2)).1 = some 0 ∧
    ((World.empty.SetCachesSynced 0 true).heap 0).cachesSynced = true :=
  ⟨rfl, rfl,
    ((getHealthChecker_same_instance World.empty
      [Action.new, Action.setCachesSynced 0 true, Action.get]).2 0 0 rfl rfl
        World.empty true).1⟩

end Server
